import Mathlib

/-!
Verification of the core components of the ALM repository against its
natural-language specification.

Shallow embedding conventions:
* Python floats are modelled as `ℚ` where the code only performs field
  operations (amortization schedules, liquidity sums, repricing volumes),
  and as `ℝ` where the code computes real powers with non-integer
  exponents (the yield-curve component, `np.power` with year-fraction
  exponents).
* Calendar dates are modelled as integer day counts (`ℤ`) in the
  yield-curve / cash-flow / liquidity components, where the code only uses
  `(date - from_date).days`.  In `date_range` (utils.py) they are modelled
  as integer microsecond counts, because Python `datetime`/`timedelta`
  arithmetic there is exact to the microsecond and the division
  `timedelta / int` rounds to the nearest microsecond (ties to even).
* `groupby(...).sum()` pipelines are embedded as filter-and-sum over row
  lists; pandas `NaN` rate cells are `Option ℝ`.
-/

/-! ### AmortizationEngine: `amortization_schedule` (src/cashflow.py lines 9-45)

`rate` is embedded as a function `ℕ → ℚ` giving the per-period rate
(`np.full(maturity, rate)` broadcast of a scalar is the constant
function).  The four result columns are lists indexed by period.
-/

inductive PaymentType where
  | BULLET
  | LINEAR
  | ANNUITY
deriving DecidableEq

structure Sched where
  cashflow : List ℚ
  interest : List ℚ
  capital : List ℚ
  remaining : List ℚ
deriving DecidableEq

/-- BULLET capital: `capital = np.zeros(maturity); capital[-1] = volume`. -/
def bullet_capital (maturity : ℕ) (volume : ℚ) (i : ℕ) : ℚ :=
  if i = maturity - 1 then volume else 0

/-- LINEAR capital: `np.full(maturity, 1/maturity) * volume`. -/
def linear_capital (maturity : ℕ) (volume : ℚ) : ℚ :=
  (1 / (maturity : ℚ)) * volume

/-- LINEAR remaining column:
`np.hstack((volume, volume - np.cumsum(capital)))[:-1]`, i.e. entry `i` is
`volume` minus the sum of the first `i` capital entries. -/
def linear_remaining (maturity : ℕ) (volume : ℚ) (i : ℕ) : ℚ :=
  volume - (((List.range maturity).map (fun _ => linear_capital maturity volume)).take i).sum

/-- ANNUITY per-period payment:
`discount_factor = 1 - (1 + rate[i]) ** (-(maturity - i + 1))`;
`cashflow[i] = (rate[i] / discount_factor) * remaining[i] if rate[i] != 0
               else remaining[i] / (maturity - i + 1)`.
Here `nLeft = maturity - i`. -/
def annuity_cashflow_step (r R : ℚ) (nLeft : ℕ) : ℚ :=
  if r ≠ 0 then (r / (1 - (1 + r) ^ (-((nLeft : ℤ) + 1)))) * R
  else R / ((nLeft : ℚ) + 1)

/-- ANNUITY running balance: `remaining = [volume]`, then
`remaining.append(remaining[i] - capital[i])` with
`capital[i] = cashflow[i] - interest[i]` and
`interest[i] = remaining[i] * rate[i]`. -/
def annuity_remaining (rate : ℕ → ℚ) (maturity : ℕ) (volume : ℚ) : ℕ → ℚ
  | 0 => volume
  | i + 1 =>
    let R := annuity_remaining rate maturity volume i
    let cf := annuity_cashflow_step (rate i) R (maturity - i)
    let int := R * rate i
    R - (cf - int)

def annuity_cashflow (rate : ℕ → ℚ) (maturity : ℕ) (volume : ℚ) (i : ℕ) : ℚ :=
  annuity_cashflow_step (rate i) (annuity_remaining rate maturity volume i) (maturity - i)

def annuity_interest (rate : ℕ → ℚ) (maturity : ℕ) (volume : ℚ) (i : ℕ) : ℚ :=
  annuity_remaining rate maturity volume i * rate i

def annuity_capital (rate : ℕ → ℚ) (maturity : ℕ) (volume : ℚ) (i : ℕ) : ℚ :=
  annuity_cashflow rate maturity volume i - annuity_interest rate maturity volume i

/-- The amortization schedule, clause by clause from the source.
(The Python `TypeError` branch for an unknown `payment_type` string is made
unreachable by the `PaymentType` enumeration; for `maturity = 0` the Python
BULLET branch would fail on `capital[-1]`, every claim assumes tenor ≥ 1.) -/
def amortization_schedule (rate : ℕ → ℚ) (maturity : ℕ) (volume : ℚ) :
    PaymentType → Sched
  | PaymentType.BULLET =>
    { cashflow := (List.range maturity).map
        (fun i => bullet_capital maturity volume i + rate i * volume)
      interest := (List.range maturity).map (fun i => rate i * volume)
      capital := (List.range maturity).map (fun i => bullet_capital maturity volume i)
      remaining := (List.range maturity).map
        (fun i => volume - bullet_capital maturity volume i) }
  | PaymentType.LINEAR =>
    { cashflow := (List.range maturity).map
        (fun i => linear_capital maturity volume +
          linear_remaining maturity volume i * rate i)
      interest := (List.range maturity).map
        (fun i => linear_remaining maturity volume i * rate i)
      capital := (List.range maturity).map (fun _ => linear_capital maturity volume)
      remaining := (List.range maturity).map (fun i => linear_remaining maturity volume i) }
  | PaymentType.ANNUITY =>
    { cashflow := (List.range maturity).map (fun i => annuity_cashflow rate maturity volume i)
      interest := (List.range maturity).map (fun i => annuity_interest rate maturity volume i)
      capital := (List.range maturity).map (fun i => annuity_capital rate maturity volume i)
      -- `remaining = remaining[1:]`: the balance after each payment
      remaining := (List.range maturity).map
        (fun i => annuity_remaining rate maturity volume (i + 1)) }

/-- Per-period rate used by `asset_cashflow` for a FIX instrument:
`monthly_rate = (rate / 10000) * (payment_freq / 12)` with `rate = spread`. -/
def asset_fix_rate (spread payment_freq : ℚ) : ℚ :=
  (spread / 10000) * (payment_freq / 12)

/-- The `asset_cashflow` schedule stage for a FIX instrument with a given number
of payment dates (src/cashflow.py lines 85-92). -/
def asset_cashflow_fix (spread payment_freq : ℚ) (maturity : ℕ) (volume : ℚ)
    (repayment : PaymentType) : Sched :=
  amortization_schedule (fun _ => asset_fix_rate spread payment_freq) maturity volume repayment

/-! ### DateSchedule: `date_range` (src/utils.py lines 106-187)

Datetimes are integer microsecond counts since the epoch; `timedelta`
values are integer microsecond counts.  `timedelta / int` rounds the true
quotient to the nearest microsecond, ties to even (CPython semantics).
`datetime(d.year, d.month, d.day)` truncates to the containing day. -/

def usPerDay : ℤ := 86400000000

/-- Round `a / b` (with `b > 0`) to the nearest integer, ties to even. -/
def divRNE (a b : ℤ) : ℤ :=
  let q := Int.fdiv a b
  let r := a - q * b
  if 2 * r < b then q
  else if b < 2 * r then q + 1
  else if q % 2 = 0 then q else q + 1

/-- Python `timedelta / int` division in microseconds.  (`b = 0` raises a
`ZeroDivisionError` in Python; callers guard that case.) -/
def tdDiv (a b : ℤ) : ℤ :=
  if 0 < b then divRNE a b else if b < 0 then divRNE (-a) (-b) else 0

/-- Python `datetime(d.year, d.month, d.day)`: truncate to the start of the day. -/
def truncDay (t : ℤ) : ℤ := Int.fdiv t usPerDay * usPerDay

/-- The `(start, end, length)` branch of `date_range` (utils.py lines
144-151 plus the final day-truncation at line 186):
`interval = (end - start) / (length - 1)`, then
`[start + i*interval]` if `start < end` else `[start - i*interval]`.
For `length = 1` the interval division raises `ZeroDivisionError`
(modelled as `none`). -/
def date_range_sel (start endd : ℤ) (length : ℕ) : Option (List ℤ) :=
  if length = 1 then none
  else
    let interval := tdDiv (endd - start) ((length : ℤ) - 1)
    let raw := if start < endd
      then (List.range length).map (fun i => start + (i : ℤ) * interval)
      else (List.range length).map (fun i => start - (i : ℤ) * interval)
    some (raw.map truncDay)

/-- The argument-validation behaviour of `date_range` (utils.py lines
110-142 and the final dispatch `else` at line 183): `true` exactly when the
function raises a `ValueError`/`TypeError` before producing dates.  The
`isinstance(length, int)` / `isinstance(step, int)` checks cannot fail in
this typed embedding (`Option ℤ` arguments); note the code never checks the
sign of `length` or `step`. -/
def date_range_raises (start endd length step : Option ℤ) : Bool :=
  if start.isNone ∧ endd.isNone ∧ length.isNone ∧ step.isNone then true
  else if start.isSome ∧ endd.isSome ∧ length.isSome ∧ step.isSome then true
  else if length.isNone ∧ step.isNone then true
  else if start.isSome ∧ endd.isSome ∧ length.isSome then false
  else if start.isSome ∧ endd.isNone ∧ length.isSome ∧ step.isSome then false
  else if endd.isSome ∧ length.isSome ∧ step.isSome ∧ start.isNone then false
  else if start.isSome ∧ endd.isSome ∧ step.isSome then false
  else true

/-! ### RiskAggregator: `repricing_gap` FIX branch (src/interest.py lines 79-107)

For a FIX instrument the rate-sensitive volume vector is
`np.zeros(months_forward)`, and the function returns
`pd.DataFrame(...).drop(0)` on the volume column: the row labelled `0` (the
first row) is removed, leaving `months_forward - 1` entries. -/
def repricing_gap_fix (months_forward : ℕ) : List ℚ :=
  List.drop 1 (List.replicate months_forward (0 : ℚ))

/-! ### RiskAggregator: `liquidity_table` (src/liquidity.py lines 6-16)

Rows of the cash-flow table carry a date (integer day count), an account
label, and a cash-flow amount.  `pd.cut(days, bins=[0,30,90,180,360,720,
1800,3600,7200], right=True)` assigns bucket `k` to `days` in
`(bins[k], bins[k+1]]`; values at or below 0 and above 7200 get no bucket
(`NaN`) and are dropped by the subsequent `groupby`. -/

structure CFRow where
  date : ℤ
  account : ℕ
  cashflow : ℚ
deriving DecidableEq

def bucketOf (d : ℤ) : Option (Fin 8) :=
  if d ≤ 0 then none
  else if d ≤ 30 then some 0
  else if d ≤ 90 then some 1
  else if d ≤ 180 then some 2
  else if d ≤ 360 then some 3
  else if d ≤ 720 then some 4
  else if d ≤ 1800 then some 5
  else if d ≤ 3600 then some 6
  else if d ≤ 7200 then some 7
  else none

/-- One entry of the pivoted liquidity table: the total cash flow of rows
on or after `today` whose account is `a` and whose elapsed days fall in
bucket `k`.  (The intermediate date-and-account `groupby(...).sum()` step
only regroups the same addends, so the (account, bucket) totals are
unchanged by it.) -/
def liquidity_entry (table : List CFRow) (today : ℤ) (a : ℕ) (k : Fin 8) : ℚ :=
  ((table.filter (fun r =>
    decide (today ≤ r.date) && decide (bucketOf (r.date - today) = some k) &&
      decide (r.account = a))).map CFRow.cashflow).sum

/-- The sum of every entry of the liquidity table, over the 8 maturity
buckets and all accounts appearing in the input. -/
def liquidity_grand_total (table : List CFRow) (today : ℤ) : ℚ :=
  ∑ k : Fin 8, ((table.map CFRow.account).dedup.map
    (fun a => liquidity_entry table today a k)).sum

/-- Total cash flow of the rows dated on or after `today`
(the unbucketed sum the claim compares against). -/
def post_today_total (table : List CFRow) (today : ℤ) : ℚ :=
  ((table.filter (fun r => decide (today ≤ r.date))).map CFRow.cashflow).sum

/-! ### YieldCurveModel (src/yieldcurve.py)

Dates are integer day counts.  The fitted Nelson-Siegel-Svensson curve is
an external black box (spec section 4.3), modelled as an arbitrary
function `curve : ℝ → ℝ` from time-to-maturity in years to a yield in
basis points.  The year-unit `time_difference(date, today, unit)` is
`(date - today).days / 365.25`. -/

/-- Actual/365.25 year fraction of `d` from `today` (`365.25 = 1461/4`). -/
noncomputable def yearFrac (today d : ℤ) : ℝ :=
  ((d - today : ℤ) : ℝ) / (1461 / 4)

/-- Spot yields, `get_spot_yields` (yieldcurve.py lines 34-40): one `(date, rate)` row
per input date, `rate = curve(maturity in years)`. -/
noncomputable def get_spot_yields (curve : ℝ → ℝ) (today : ℤ) (dates : List ℤ) :
    List (ℤ × ℝ) :=
  dates.map (fun d => (d, curve (yearFrac today d)))

/-- Forward yields, `get_forward_yields` (yieldcurve.py lines 71-83):
`rates = curve(maturities) / 10000`;
`interests = (1 + rates) ** maturities`;
`interests_shifted = concatenate(([1], roll(interests, 1)[1:]))`
  (i.e. `1` followed by `interests` without its last element);
`forwards = ((interests / interests_shifted) + (-1)) * 10000`. -/
noncomputable def get_forward_yields (curve : ℝ → ℝ) (today : ℤ) (dates : List ℤ) :
    List (ℤ × ℝ) :=
  let mats := dates.map (yearFrac today)
  let interests := mats.map (fun τ => (1 + curve τ / 10000) ^ τ)
  let shifted := 1 :: interests.dropLast
  dates.zip ((interests.zip shifted).map (fun p => (p.1 / p.2 + (-1)) * 10000))

/-- Exact-key lookup used to model `pd.merge(...)` on the date column against the
forward-yield frame (repricing dates are pairwise distinct in all uses). -/
def lookupRate (d : ℤ) : List (ℤ × ℝ) → Option ℝ
  | [] => none
  | (k, v) :: t => if d = k then some v else lookupRate d t

/-- Forward fill of the rate column, `fillna` with the ffill method: carry the last
non-missing rate forward; leading missing values stay missing. -/
def ffill (carry : Option ℝ) : List (ℤ × Option ℝ) → List (ℤ × Option ℝ)
  | [] => []
  | (d, some x) :: t => (d, some x) :: ffill (some x) t
  | (d, none) :: t => (d, carry) :: ffill carry t

/-- Row order `a.1 ≤ b.1` used by the stable `sort_values` on the date column. -/
def rowLE (a b : ℤ × Option ℝ) : Prop := a.1 ≤ b.1

instance : DecidableRel rowLE := fun a b => Int.decLe a.1 b.1

/-- Floating yields, `get_floating_yields` (yieldcurve.py lines 98-115):
outer-merge the repayment dates with the forward yields at the repricing
dates (left rows in order, then unmatched right rows), overwrite the rate
of the row labelled 0 (the first merged row) with the spot yield of the
first repricing date, stable-sort by date, forward-fill the rate column,
and keep the rows whose date is a repayment date.  An empty
`repricing_dates` list makes the read `spot_yields.at[0]` raise
(modelled as `none`). -/
noncomputable def get_floating_yields (curve : ℝ → ℝ) (today : ℤ)
    (repayment repricing : List ℤ) : Option (List (ℤ × Option ℝ)) :=
  match repricing with
  | [] => none
  | d0 :: _ =>
    let fwd := get_forward_yields curve today repricing
    let merged := repayment.map (fun d => (d, lookupRate d fwd)) ++
      (fwd.filter (fun q => !(decide (q.1 ∈ repayment)))).map (fun q => (q.1, some q.2))
    let spot0 := curve (yearFrac today d0)
    let overridden := match merged with
      | [] => []
      | (d, _) :: t => (d, some spot0) :: t
    let sorted := List.insertionSort rowLE overridden
    let filled := ffill none sorted
    some (filled.filter (fun p => decide (p.1 ∈ repayment)))

/-! ### Helper lemmas -/

theorem getElem?_range_map {α : Type} (m : ℕ) (f : ℕ → α) (i : ℕ) (hi : i < m) :
    ((List.range m).map f)[i]? = some (f i) := by
  rw [List.getElem?_map, List.getElem?_range hi, Option.map_some']

/-! ### Claim theorems -/

/-- C10: for every supported convention (BULLET, LINEAR, ANNUITY), tenor,
principal and rate path, the cash-flow column of the schedule returned by
`amortization_schedule` is, period by period, the sum of the capital and
interest columns. -/
theorem cashflow_eq_capital_add_interest (pt : PaymentType) (rate : ℕ → ℚ)
    (tenor : ℕ) (volume : ℚ) :
    (amortization_schedule rate tenor volume pt).cashflow =
      List.zipWith (· + ·) (amortization_schedule rate tenor volume pt).capital
        (amortization_schedule rate tenor volume pt).interest := by
  cases pt
  · simp only [amortization_schedule, List.zipWith_map, List.zipWith_same]
  · simp only [amortization_schedule, List.zipWith_map, List.zipWith_same]
  · simp only [amortization_schedule, List.zipWith_map, List.zipWith_same]
    exact List.map_congr_left fun i _ => by simp [annuity_capital]

/-- C1: for every tenor ≥ 1, principal and per-period rate path, the ANNUITY
schedule satisfies, for each period `i < tenor` with `R 0 = principal` and
`n = tenor - i`: `payment i = R i * rate i / (1 - (1 + rate i) ^ (-(n+1)))`
when `rate i ≠ 0`, `payment i = R i / (n + 1)` when `rate i = 0`;
`interest i = R i * rate i`; `capital i = payment i - interest i`;
`R (i+1) = R i - capital i`; the returned cash-flow column holds
`payment i` and the remaining-balance column holds `R (i+1)`. -/
theorem annuity_schedule_spec (rate : ℕ → ℚ) (tenor : ℕ) (principal : ℚ)
    (htenor : 1 ≤ tenor) (i : ℕ) (hi : i < tenor) :
    annuity_remaining rate tenor principal 0 = principal ∧
    (rate i ≠ 0 → annuity_cashflow rate tenor principal i =
      annuity_remaining rate tenor principal i * rate i /
        (1 - (1 + rate i) ^ (-(((tenor - i : ℕ) : ℤ) + 1)))) ∧
    (rate i = 0 → annuity_cashflow rate tenor principal i =
      annuity_remaining rate tenor principal i / (((tenor - i : ℕ) : ℚ) + 1)) ∧
    annuity_interest rate tenor principal i =
      annuity_remaining rate tenor principal i * rate i ∧
    annuity_capital rate tenor principal i =
      annuity_cashflow rate tenor principal i - annuity_interest rate tenor principal i ∧
    annuity_remaining rate tenor principal (i + 1) =
      annuity_remaining rate tenor principal i - annuity_capital rate tenor principal i ∧
    (amortization_schedule rate tenor principal PaymentType.ANNUITY).cashflow[i]? =
      some (annuity_cashflow rate tenor principal i) ∧
    (amortization_schedule rate tenor principal PaymentType.ANNUITY).remaining[i]? =
      some (annuity_remaining rate tenor principal (i + 1)) := by
  refine ⟨rfl, fun hr => ?_, fun hr => ?_, rfl, rfl, ?_, ?_, ?_⟩
  · rw [annuity_cashflow, annuity_cashflow_step, if_pos hr, mul_comm, mul_div_assoc]
  · rw [annuity_cashflow, annuity_cashflow_step, if_neg (not_not_intro hr)]
  · rw [annuity_remaining, annuity_capital, annuity_interest, annuity_cashflow]
  · exact getElem?_range_map tenor _ i hi
  · exact getElem?_range_map tenor _ i hi

theorem annuity_schedule_spec_witness :
    (1 ≤ 2 ∧ (0:ℕ) < 2) ∧
    annuity_cashflow (fun _ => 0) 2 100 0 = 100 / (((2 - 0 : ℕ) : ℚ) + 1) ∧
    annuity_remaining (fun _ => 0) 2 100 1 =
      annuity_remaining (fun _ => 0) 2 100 0 - annuity_capital (fun _ => 0) 2 100 0 := by
  have h := annuity_schedule_spec (fun _ => 0) 2 100 (by decide) 0 (by decide)
  exact ⟨by decide, h.2.2.1 rfl, h.2.2.2.2.2.1⟩

/-- C6 (code evaluation at the failing input): for the LINEAR schedule with
zero rate, tenor 12 and principal 1200, the remaining-balance column of the code
is `[1200, 1100, ..., 100]` — the balance *before* each capital payment —
while `principal - sum(capital[0..i])` (the claimed value, the balance
*after* each payment) ends at 0; at period 11 the code column holds 100,
not 0.  The capital column itself is `principal / tenor` every period and
sums to the principal, as the claim states. -/
theorem linear_remaining_code_eval :
    (amortization_schedule (fun _ => 0) 12 1200 PaymentType.LINEAR).remaining =
      [1200, 1100, 1000, 900, 800, 700, 600, 500, 400, 300, 200, 100] ∧
    (amortization_schedule (fun _ => 0) 12 1200 PaymentType.LINEAR).capital =
      List.replicate 12 (1200 / 12) ∧
    ((amortization_schedule (fun _ => 0) 12 1200 PaymentType.LINEAR).capital.take 12).sum
      = 1200 ∧
    (amortization_schedule (fun _ => 0) 12 1200 PaymentType.LINEAR).remaining[11]? ≠
      some (1200 -
        ((amortization_schedule (fun _ => 0) 12 1200 PaymentType.LINEAR).capital.take 12).sum) := by
  refine ⟨?_, ?_, ?_, ?_⟩ <;>
    simp [amortization_schedule, linear_remaining, linear_capital, List.range_succ,
      List.replicate] <;> norm_num

/-- C9: for every tenor ≥ 1, principal and rate path, the BULLET schedule
has zero capital in every period before the last, full principal capital in
the final period, and interest `rate i * principal` in every period;
consequently one FIX BULLET instrument with volume 1,000,000, spread 200bp,
monthly payments and 12 payment periods yields 12 rows with interest
`1,000,000 * 0.02 / 12` in each row, capital 0 in rows 1-11 and 1,000,000
in row 12. -/
theorem bullet_schedule_spec (rate : ℕ → ℚ) (tenor : ℕ) (principal : ℚ)
    (htenor : 1 ≤ tenor) :
    (∀ i, i < tenor - 1 →
      (amortization_schedule rate tenor principal PaymentType.BULLET).capital[i]? = some 0) ∧
    (amortization_schedule rate tenor principal PaymentType.BULLET).capital[tenor - 1]? =
      some principal ∧
    (∀ i, i < tenor →
      (amortization_schedule rate tenor principal PaymentType.BULLET).interest[i]? =
        some (rate i * principal)) ∧
    (asset_cashflow_fix 200 1 12 1000000 PaymentType.BULLET).cashflow.length = 12 ∧
    (asset_cashflow_fix 200 1 12 1000000 PaymentType.BULLET).interest =
      List.replicate 12 (1000000 * ((2 : ℚ) / 100) / 12) ∧
    (asset_cashflow_fix 200 1 12 1000000 PaymentType.BULLET).capital =
      List.replicate 11 0 ++ [1000000] := by
  refine ⟨fun i hi => ?_, ?_, fun i hi => ?_, ?_, ?_, ?_⟩
  rotate_left 3
  · simp [asset_cashflow_fix, amortization_schedule]
  · simp [asset_cashflow_fix, amortization_schedule, asset_fix_rate, List.range_succ,
      List.replicate]
    norm_num
  · simp [asset_cashflow_fix, amortization_schedule, bullet_capital, List.range_succ,
      List.replicate]
  · rw [amortization_schedule,
      getElem?_range_map tenor _ i (lt_of_lt_of_le hi (Nat.sub_le tenor 1)),
      bullet_capital, if_neg (Nat.ne_of_lt hi)]
  · rw [amortization_schedule,
      getElem?_range_map tenor _ (tenor - 1) (Nat.sub_lt (lt_of_lt_of_le one_pos htenor) one_pos),
      bullet_capital, if_pos rfl]
  · rw [amortization_schedule, getElem?_range_map tenor _ i hi]

theorem bullet_schedule_spec_witness :
    (1 ≤ 2 ∧ (0:ℕ) < 2 - 1 ∧ (1:ℕ) < 2) ∧
    (amortization_schedule (fun _ => (1:ℚ)) 2 7 PaymentType.BULLET).capital[0]? = some 0 ∧
    (amortization_schedule (fun _ => (1:ℚ)) 2 7 PaymentType.BULLET).capital[2 - 1]? = some 7 ∧
    (amortization_schedule (fun _ => (1:ℚ)) 2 7 PaymentType.BULLET).interest[1]? =
      some ((fun _ => (1:ℚ)) 1 * 7) := by
  have h := bullet_schedule_spec (fun _ => 1) 2 7 (by decide)
  exact ⟨by decide, h.1 0 (by decide), h.2.1, h.2.2.1 1 (by decide)⟩

/-- C5 (code evaluation at the failing input): with start = day 10,
end = day 0 and length = 3 (start > end, so the claim expects the
descending sequence day 10, day 5, day 0 ending at `end`), the computed
interval `(end - start)/(length - 1)` is -5 days and the `start > end`
branch computes `start - i * interval`, producing day 10, day 15, day 20 —
moving away from `end`.  With length = 1 the interval division raises
`ZeroDivisionError`. -/
theorem date_range_sel_code_eval :
    date_range_sel (10 * usPerDay) 0 3 =
      some [10 * usPerDay, 15 * usPerDay, 20 * usPerDay] ∧
    20 * usPerDay ≠ 0 ∧
    date_range_sel 0 (10 * usPerDay) 1 = none := by
  refine ⟨by decide, by decide, by decide⟩

/-- C7 (code evaluation at the failing input): for a FIX instrument and
`months_forward = 12`, `repricing_gap` builds `np.zeros(12)` and then
`.drop(0)` removes the first row, returning 11 zero buckets instead of the
12 the claim (and the `"1M".."12M"` column labelling in
`repricing_gap_table`) require. -/
theorem repricing_gap_fix_code_eval :
    repricing_gap_fix 12 = List.replicate 11 0 ∧
    (repricing_gap_fix 12).length = 11 ∧ (11 : ℕ) ≠ 12 := by
  refine ⟨by decide, by decide, by decide⟩

/-- C8 (amended): `date_range` raises an invalid-argument error iff all
four parameters are null, or all four are non-null, or neither `length`
nor `step` is supplied, or none of the four valid parameter combinations
(start-end-length, start-length-step, end-length-step, start-end-step)
matches.  The code checks only that a supplied `length`/`step` is an
integer (guaranteed here by the `Option ℤ` type); it never checks
positivity. -/
theorem date_range_error_conditions (start endd length step : Option ℤ) :
    date_range_raises start endd length step = true ↔
      ((start = none ∧ endd = none ∧ length = none ∧ step = none) ∨
       (start ≠ none ∧ endd ≠ none ∧ length ≠ none ∧ step ≠ none) ∨
       (length = none ∧ step = none) ∨
       ¬((start ≠ none ∧ endd ≠ none ∧ length ≠ none) ∨
         (start ≠ none ∧ endd = none ∧ length ≠ none ∧ step ≠ none) ∨
         (endd ≠ none ∧ length ≠ none ∧ step ≠ none ∧ start = none) ∨
         (start ≠ none ∧ endd ≠ none ∧ step ≠ none))) := by
  rcases start with _ | s <;> rcases endd with _ | e <;> rcases length with _ | l <;>
    rcases step with _ | t <;> simp [date_range_raises]

/-- C8 (counterexample): `length = 0` is supplied and is not a positive
whole number, yet `date_range(start, end, length=0)` raises no error (it
returns an empty list), contradicting the claim that a zero or negative
`length` is rejected. -/
theorem date_range_zero_length_not_rejected :
    date_range_raises (some 0) (some (10 * usPerDay)) (some 0) none = false ∧
    ¬(0 : ℤ) > 0 := by
  refine ⟨by decide, by decide⟩

/-- C2 (amended): for a single-element date list `[d]`, `get_spot_yields`
returns the fitted-curve rate at the year fraction τ of `d`, and
`get_forward_yields` returns that spot rate re-expressed through its
compounding factor over the whole period: `10000 * ((1 + spot/10000)^τ - 1)`
(the prior factor is the implicit 1).  This equals the spot rate itself
only when τ = 1 (or the rate is 0), not for every date. -/
theorem forward_yields_single_date (curve : ℝ → ℝ) (today d : ℤ) :
    get_spot_yields curve today [d] = [(d, curve (yearFrac today d))] ∧
    get_forward_yields curve today [d] =
      [(d, 10000 * ((1 + curve (yearFrac today d) / 10000) ^ yearFrac today d - 1))] := by
  constructor
  · simp [get_spot_yields]
  · simp only [get_forward_yields, List.map_cons, List.map_nil, List.dropLast_single,
      List.zip_cons_cons, List.zip_nil_right]
    rw [List.cons.injEq]
    refine ⟨?_, rfl⟩
    rw [Prod.mk.injEq]
    refine ⟨rfl, ?_⟩
    ring

/-- C2 (counterexample): for the flat 100bp curve and a date 1461 days
(exactly 4 years Actual/365.25) after today, the single-date forward yield
is `10000 * (1.01^4 - 1) = 406.0401`, which differs from the spot yield
100: `get_forward_yields([d])` does not return the spot yield of `d`. -/
theorem forward_yields_single_date_counterexample :
    get_forward_yields (fun _ => 100) 0 [1461] ≠
      get_spot_yields (fun _ => 100) 0 [1461] := by
  have hτ : yearFrac 0 1461 = 4 := by
    unfold yearFrac
    norm_num
  have h4 : ((1 : ℝ) + 100 / 10000) ^ (yearFrac 0 1461) = (101 / 100 : ℝ) ^ (4 : ℕ) := by
    rw [hτ, show ((4:ℝ) = ((4:ℕ):ℝ)) by norm_num, Real.rpow_natCast]
    norm_num
  simp only [get_forward_yields, get_spot_yields, List.map_cons, List.map_nil,
    List.dropLast_single, List.zip_cons_cons, List.zip_nil_right, ne_eq,
    List.cons.injEq, Prod.mk.injEq, and_true, true_and]
  rw [h4]
  intro h
  norm_num at h

theorem bucketOf_eq_none {d : ℤ} : bucketOf d = none ↔ d ≤ 0 ∨ 7200 < d := by
  unfold bucketOf
  split_ifs <;> simp <;> omega

theorem bucketOf_some_bounds {d : ℤ} {k : Fin 8} (h : bucketOf d = some k) :
    0 < d ∧ d ≤ 7200 := by
  unfold bucketOf at h
  split_ifs at h <;> omega

theorem sum_map_filter_not_add (p : CFRow → Bool) (l : List CFRow) :
    ((l.filter p).map CFRow.cashflow).sum +
      ((l.filter (fun r => !(p r))).map CFRow.cashflow).sum =
      (l.map CFRow.cashflow).sum := by
  induction l with
  | nil => simp
  | cons r t ih =>
    by_cases h : p r
    · simp only [List.filter_cons, h, Bool.not_true, if_true, if_false, List.map_cons,
        List.sum_cons, Bool.false_eq_true]
      rw [add_assoc, ih]
    · simp only [List.filter_cons, h, Bool.not_false, if_true, if_false, List.map_cons,
        List.sum_cons, Bool.false_eq_true]
      rw [add_left_comm, ih]

theorem sum_filter_account_partition (accounts : List ℕ) (hnd : accounts.Nodup) :
    ∀ l : List CFRow, (∀ r ∈ l, r.account ∈ accounts) →
      (accounts.map (fun a =>
        ((l.filter (fun r => decide (r.account = a))).map CFRow.cashflow).sum)).sum =
        (l.map CFRow.cashflow).sum := by
  induction accounts with
  | nil =>
    intro l hmem
    cases l with
    | nil => simp
    | cons r t => exact absurd (hmem r (List.mem_cons_self r t)) (List.not_mem_nil _)
  | cons a as ih =>
    intro l hmem
    have hnd' : as.Nodup := hnd.of_cons
    have hna : a ∉ as := (List.nodup_cons.mp hnd).1
    have htail : ∀ b ∈ as,
        (l.filter (fun r => decide (r.account = b))) =
          ((l.filter (fun r => !(decide (r.account = a)))).filter
            (fun r => decide (r.account = b))) := by
      intro b hb
      rw [List.filter_filter]
      refine (List.filter_congr fun r _ => ?_).symm
      by_cases hr : r.account = b
      · have hba : b ≠ a := fun h => hna (h ▸ hb)
        simp [hr, hba]
      · simp [hr]
    have hmem' : ∀ r ∈ l.filter (fun r => !(decide (r.account = a))), r.account ∈ as := by
      intro r hr
      have h1 := List.mem_of_mem_filter hr
      have h2 := List.of_mem_filter hr
      have h3 : r.account ≠ a := by simpa using h2
      have := hmem r h1
      rcases List.mem_cons.mp this with h | h
      · exact absurd h h3
      · exact h
    have hrw : (as.map (fun b =>
        ((l.filter (fun r => decide (r.account = b))).map CFRow.cashflow).sum)).sum =
        ((l.filter (fun r => !(decide (r.account = a)))).map CFRow.cashflow).sum := by
      rw [List.map_congr_left (fun b hb => by rw [htail b hb])]
      exact ih hnd' _ hmem'
    simp only [List.map_cons, List.sum_cons, hrw]
    exact sum_map_filter_not_add (fun r => decide (r.account = a)) l

theorem sum_filter_bucket_partition (today : ℤ) :
    ∀ l : List CFRow,
      (∑ k : Fin 8, ((l.filter (fun r => decide (today ≤ r.date) &&
          decide (bucketOf (r.date - today) = some k))).map CFRow.cashflow).sum) =
        ((l.filter (fun r => decide (0 < r.date - today) &&
          decide (r.date - today ≤ 7200))).map CFRow.cashflow).sum := by
  intro l
  induction l with
  | nil => simp
  | cons r t ih =>
    rcases hb : bucketOf (r.date - today) with _ | k0
    · have hnb := bucketOf_eq_none.mp hb
      have hrhs : ¬(0 < r.date - today ∧ r.date - today ≤ 7200) := by omega
      have hlhs : ∀ k : Fin 8,
          (decide (today ≤ r.date) && decide (bucketOf (r.date - today) = some k)) = false := by
        intro k
        simp [hb]
      calc (∑ k : Fin 8, (((r :: t).filter (fun r => decide (today ≤ r.date) &&
              decide (bucketOf (r.date - today) = some k))).map CFRow.cashflow).sum)
          = ∑ k : Fin 8, ((t.filter (fun r => decide (today ≤ r.date) &&
              decide (bucketOf (r.date - today) = some k))).map CFRow.cashflow).sum := by
            refine Finset.sum_congr rfl fun k _ => ?_
            rw [List.filter_cons, if_neg (by simp [hlhs k])]
        _ = ((t.filter (fun r => decide (0 < r.date - today) &&
              decide (r.date - today ≤ 7200))).map CFRow.cashflow).sum := ih
        _ = (((r :: t).filter (fun r => decide (0 < r.date - today) &&
              decide (r.date - today ≤ 7200))).map CFRow.cashflow).sum := by
            rw [List.filter_cons, if_neg (by simp [decide_eq_true_eq]; omega)]
    · have hbounds := bucketOf_some_bounds hb
      have htoday : today ≤ r.date := by omega
      calc (∑ k : Fin 8, (((r :: t).filter (fun r => decide (today ≤ r.date) &&
              decide (bucketOf (r.date - today) = some k))).map CFRow.cashflow).sum)
          = ∑ k : Fin 8, ((if k = k0 then r.cashflow else 0) +
              ((t.filter (fun r => decide (today ≤ r.date) &&
                decide (bucketOf (r.date - today) = some k))).map CFRow.cashflow).sum) := by
            refine Finset.sum_congr rfl fun k _ => ?_
            by_cases hk : k = k0
            · rw [List.filter_cons, if_pos (by simp [hb, htoday, hk]), List.map_cons,
                List.sum_cons, if_pos hk]
            · rw [List.filter_cons, if_neg (by simp [hb, Ne.symm hk]), if_neg hk, zero_add]
        _ = r.cashflow + ∑ k : Fin 8, ((t.filter (fun r => decide (today ≤ r.date) &&
              decide (bucketOf (r.date - today) = some k))).map CFRow.cashflow).sum := by
            rw [Finset.sum_add_distrib, Finset.sum_ite_eq' Finset.univ k0
              (fun _ => r.cashflow), if_pos (Finset.mem_univ k0)]
        _ = (((r :: t).filter (fun r => decide (0 < r.date - today) &&
              decide (r.date - today ≤ 7200))).map CFRow.cashflow).sum := by
            rw [ih, List.filter_cons, if_pos (by simp [decide_eq_true_eq]; omega),
              List.map_cons, List.sum_cons]

/-- C4 (amended): the sum of all entries of the liquidity gap table (over
the 8 maturity buckets and all accounts) equals the total cash flow of the
rows dated strictly after today and at most 7200 days after today.  Rows
dated exactly today fall outside the right-inclusive first bin `(0, 30]`,
and rows more than 7200 days out fall beyond the last bin; `pd.cut` gives
them no bucket and they are dropped. -/
theorem liquidity_total_conservation (table : List CFRow) (today : ℤ) :
    liquidity_grand_total table today =
      ((table.filter (fun r => decide (0 < r.date - today) &&
        decide (r.date - today ≤ 7200))).map CFRow.cashflow).sum := by
  rw [← sum_filter_bucket_partition today table]
  unfold liquidity_grand_total
  refine Finset.sum_congr rfl fun k _ => ?_
  have hentry : ∀ a : ℕ, liquidity_entry table today a k =
      (((table.filter (fun r => decide (today ≤ r.date) &&
        decide (bucketOf (r.date - today) = some k))).filter
          (fun r => decide (r.account = a))).map CFRow.cashflow).sum := by
    intro a
    unfold liquidity_entry
    rw [List.filter_filter]
    congr 1
    refine congrArg _ (List.filter_congr fun r _ => ?_)
    cases decide (r.account = a) <;> cases decide (today ≤ r.date) <;>
      cases decide (bucketOf (r.date - today) = some k) <;> rfl
  rw [List.map_congr_left (fun a _ => hentry a)]
  refine sum_filter_account_partition _ (List.nodup_dedup _) _ fun r hr => ?_
  exact List.mem_dedup.mpr (List.mem_map_of_mem CFRow.account (List.mem_of_mem_filter hr))

/-- C4 (counterexample): a single cash flow of 5 dated exactly today is a
row dated on or after today, but it receives no maturity bucket (`pd.cut`
with left edge 0 excluded), so the entries of the liquidity table sum to 0
while the post-today cash-flow total is 5. -/
theorem liquidity_total_counterexample :
    liquidity_grand_total [⟨0, 0, 5⟩] 0 = 0 ∧
    post_today_total [⟨0, 0, 5⟩] 0 = 5 ∧
    liquidity_grand_total [⟨0, 0, 5⟩] 0 ≠ post_today_total [⟨0, 0, 5⟩] 0 := by
  have h1 : liquidity_grand_total [⟨0, 0, 5⟩] 0 = 0 := by
    unfold liquidity_grand_total liquidity_entry
    norm_num [bucketOf, List.dedup]
  have h2 : post_today_total [⟨0, 0, 5⟩] 0 = 5 := by
    unfold post_today_total
    norm_num
  exact ⟨h1, h2, by rw [h1, h2]; norm_num⟩

theorem ffill_map_none (x : ℝ) : ∀ l : List ℤ,
    ffill (some x) (l.map (fun d => (d, (none : Option ℝ)))) =
      l.map (fun d => (d, some x))
  | [] => rfl
  | d :: t => by
    rw [List.map_cons, ffill, List.map_cons, ffill_map_none x t]

theorem orderedInsert_eq_cons_of_sorted (a : ℤ × Option ℝ) (t : List (ℤ × Option ℝ))
    (hs : List.Sorted rowLE (a :: t)) : List.orderedInsert rowLE a t = a :: t := by
  cases t with
  | nil => rfl
  | cons b t' =>
    rw [List.orderedInsert, if_pos (List.rel_of_sorted_cons hs b (List.mem_cons_self b t'))]

theorem insertionSort_append_min (x : ℤ × Option ℝ) :
    ∀ l : List (ℤ × Option ℝ), (∀ p ∈ l, x.1 < p.1) → List.Sorted rowLE l →
      List.insertionSort rowLE (l ++ [x]) = x :: l := by
  intro l
  induction l with
  | nil => intro _ _; rfl
  | cons a t ih =>
    intro hlt hs
    rw [List.cons_append, List.insertionSort,
      ih (fun p hp => hlt p (List.mem_cons_of_mem a hp)) hs.of_cons,
      List.orderedInsert]
    have hx : ¬ rowLE a x := not_le.mpr (hlt a (List.mem_cons_self a t))
    rw [if_neg hx, orderedInsert_eq_cons_of_sorted a t hs]

theorem sorted_rowLE_of_keys (l : List (ℤ × Option ℝ))
    (h : List.Sorted (· < ·) (l.map Prod.fst)) : List.Sorted rowLE l :=
  (List.pairwise_map.mp h).imp fun hab => le_of_lt hab

theorem ffill_cons_some (c : Option ℝ) (d : ℤ) (x : ℝ) (t : List (ℤ × Option ℝ)) :
    ffill c ((d, some x) :: t) = (d, some x) :: ffill (some x) t := rfl

theorem ffill_cons_none (c : Option ℝ) (d : ℤ) (t : List (ℤ × Option ℝ)) :
    ffill c ((d, none) :: t) = (d, c) :: ffill c t := rfl

theorem forward_yields_singleton (curve : ℝ → ℝ) (today d : ℤ) :
    get_forward_yields curve today [d] =
      [(d, ((1 + curve (yearFrac today d) / 10000) ^ yearFrac today d + -1) * 10000)] := by
  simp [get_forward_yields]

/-- C3: for every nonempty strictly-chronological list of repayment dates
`r :: rs`, if the repricing-date list is exactly `[d0]` with `d0` at or
before the first repayment date `r`, then `get_floating_yields` returns
exactly one row per repayment date, in chronological order, and every row
carries the spot yield of the single repricing date, `curve (yearFrac today d0)`
(forward-filled from the one observation; the override of the first merged
row with the spot yield of the first repricing date makes the carried
value the spot, not the forward, yield). -/
theorem floating_yields_single_repricing (curve : ℝ → ℝ) (today d0 r : ℤ)
    (rs : List ℤ) (hsorted : List.Sorted (· < ·) (r :: rs)) (hd0 : d0 ≤ r) :
    get_floating_yields curve today (r :: rs) [d0] =
      some ((r :: rs).map (fun d => (d, some (curve (yearFrac today d0))))) := by
  have hrlt : ∀ d ∈ rs, r < d := List.rel_of_sorted_cons hsorted
  simp only [get_floating_yields, forward_yields_singleton]
  generalize ((1 + curve (yearFrac today d0) / 10000) ^ yearFrac today d0 + -1) * 10000 = f0
  by_cases hcase : d0 = r
  · subst hcase
    have hmaptail : rs.map (fun d => (d, lookupRate d [(d0, f0)])) =
        rs.map (fun d => (d, (none : Option ℝ))) :=
      List.map_congr_left fun d hd => by
        rw [lookupRate, if_neg (ne_of_gt (hrlt d hd)), lookupRate]
    rw [List.map_cons, hmaptail, lookupRate, if_pos rfl]
    have hfilt : List.filter (fun q => !decide (q.1 ∈ d0 :: rs)) [(d0, f0)] = [] := by simp
    rw [hfilt, List.map_nil, List.append_nil]
    have hsortedRow : List.Sorted rowLE
        ((d0, some (curve (yearFrac today d0))) ::
          List.map (fun d => (d, (none : Option ℝ))) rs) := by
      apply sorted_rowLE_of_keys
      have hk : ((d0, some (curve (yearFrac today d0))) ::
          List.map (fun d => (d, (none : Option ℝ))) rs).map Prod.fst = d0 :: rs := by
        simp [List.map_map, Function.comp_def]
      rw [hk]
      exact hsorted
    rw [List.Sorted.insertionSort_eq hsortedRow, ffill_cons_some, ffill_map_none,
      List.filter_cons, if_pos (by simp), List.filter_map]
    have hkeep : rs.filter ((fun p => decide (p.1 ∈ d0 :: rs)) ∘
        (fun d => (d, some (curve (yearFrac today d0))))) = rs :=
      List.filter_eq_self.mpr fun d hd => by simp [hd]
    rw [hkeep, List.map_cons]
  · have hlt : d0 < r := lt_of_le_of_ne hd0 hcase
    have hnotmem : d0 ∉ r :: rs := by
      intro hmem
      rcases List.mem_cons.mp hmem with h | h
      · exact hcase h
      · exact absurd (hrlt d0 h) (by omega)
    have hmaphead : lookupRate r [(d0, f0)] = none := by
      rw [lookupRate, if_neg (fun h => hcase h.symm), lookupRate]
    have hmaptail : rs.map (fun d => (d, lookupRate d [(d0, f0)])) =
        rs.map (fun d => (d, (none : Option ℝ))) :=
      List.map_congr_left fun d hd => by
        rw [lookupRate, if_neg (fun h => absurd (hrlt d hd) (by omega)), lookupRate]
    have hnotmem2 : d0 ∉ rs := fun h => absurd (hrlt d0 h) (by omega)
    have hfilt : List.filter (fun q => !decide (q.1 ∈ r :: rs)) [(d0, f0)] = [(d0, f0)] := by
      simp [hcase, hnotmem2]
    rw [List.map_cons, hmaphead, hmaptail, hfilt, List.map_cons, List.map_nil,
      List.cons_append]
    have hsortedTail : List.Sorted rowLE (List.map (fun d => (d, (none : Option ℝ))) rs) := by
      apply sorted_rowLE_of_keys
      have hk : (List.map (fun d => (d, (none : Option ℝ))) rs).map Prod.fst = rs := by
        simp [List.map_map, Function.comp_def]
      rw [hk]
      exact hsorted.of_cons
    have hmin : ∀ p ∈ List.map (fun d => (d, (none : Option ℝ))) rs,
        ((d0, some f0) : ℤ × Option ℝ).1 < p.1 := by
      intro p hp
      obtain ⟨d, hd, rfl⟩ := List.mem_map.mp hp
      exact lt_trans hlt (hrlt d hd)
    have hsortedRow : List.Sorted rowLE
        ((r, some (curve (yearFrac today d0))) ::
          List.map (fun d => (d, (none : Option ℝ))) rs) := by
      apply sorted_rowLE_of_keys
      have hk : ((r, some (curve (yearFrac today d0))) ::
          List.map (fun d => (d, (none : Option ℝ))) rs).map Prod.fst = r :: rs := by
        simp [List.map_map, Function.comp_def]
      rw [hk]
      exact hsorted
    rw [List.insertionSort, insertionSort_append_min _ _ hmin hsortedTail,
      List.orderedInsert]
    have hno : ¬ rowLE (r, some (curve (yearFrac today d0))) (d0, some f0) :=
      not_le.mpr hlt
    rw [if_neg hno, orderedInsert_eq_cons_of_sorted _ _ hsortedRow, ffill_cons_some,
      ffill_cons_some, ffill_map_none, List.filter_cons,
      if_neg (by simp [hcase, hnotmem2]), List.filter_cons, if_pos (by simp), List.filter_map]
    have hkeep : rs.filter ((fun p => decide (p.1 ∈ r :: rs)) ∘
        (fun d => (d, some (curve (yearFrac today d0))))) = rs :=
      List.filter_eq_self.mpr fun d hd => by simp [hd]
    rw [hkeep, List.map_cons]

theorem floating_yields_single_repricing_witness :
    (List.Sorted (· < ·) [(30 : ℤ), 60] ∧ (10 : ℤ) ≤ 30) ∧
    get_floating_yields (fun _ => (100 : ℝ)) 0 [30, 60] [10] =
      some [(30, some (100 : ℝ)), (60, some (100 : ℝ))] := by
  constructor
  · exact ⟨by simp, by norm_num⟩
  · have h := floating_yields_single_repricing (fun _ => (100 : ℝ)) 0 10 30 [60]
      (by simp) (by norm_num)
    simpa using h
